import Mathlib

/-!
Shallow embedding of the `http_client` Go package (files `errors.go`,
`encoders.go`, the decoder file and the client file) for checking its
natural-language specification.

Modelling conventions:
* Go `interface{}` values are `GoVal`; `nil` interfaces are `Option.none`.
* Go byte streams (`io.Reader` contents) are `List Char`; a `nil` reader is
  `Option.none` of a stream.
* Fallible Go code returns `Except`; a Go `panic` surfaces as the dedicated
  `DoResult.panicked` outcome.
* Go maps (`map[string]string`) are association lists; the claims settled
  here do not depend on map iteration order.
* The network transport behind `http.Client.Do` is a parameter of the
  request pipeline, so theorems quantify over every possible server
  behaviour.
-/

/-- Values of Go dynamic type `interface{}` as relevant to this client:
JSON-representable scalars, arrays and objects. -/
inductive GoVal where
  | null : GoVal
  | bool : Bool → GoVal
  | int : Int → GoVal
  | str : String → GoVal
  | arr : List GoVal → GoVal
  | obj : List (String × GoVal) → GoVal

/-- The `Err` struct of `errors.go`: code, message and optional metadata
(`Meta interface{}`, `nil` modelled as `none`). -/
structure Err where
  Code : Int
  Message : String
  Meta : Option GoVal

/-- Go `error` values as relevant to this package: plain message errors
(`fmt.Errorf`), `Err` values used as errors, and `wrapErr.Wrap` layers
(whose outer component is always a formatted message in this code). -/
inductive GoError where
  | str : String → GoError
  | ofErr : Err → GoError
  | wrapped : String → GoError → GoError

/-- `NewErr` from `errors.go`. -/
def NewErr (code : Int) (message : String) (meta : Option GoVal) : Err :=
  { Code := code, Message := message, Meta := meta }

/-- `Err.Is` from `errors.go`: the target is type-asserted to `Err`
(here: the `GoError.ofErr` constructor) and then only the codes are
compared; any other target kind yields `false`. -/
def Err.Is (e : Err) (target : GoError) : Bool :=
  match target with
  | GoError.ofErr e2 => e.Code == e2.Code
  | _ => false

/-! ### JSON marshalling (`encoding/json` as used by `JsonEncoder`) -/

/-- Escape one character the way `json.Marshal` does for the characters
that can occur in this development (quote, backslash, common control
characters, and the HTML-escaped `<`, `>`, `&`). -/
def escapeJsonChar (c : Char) : List Char :=
  if c == '"' then ['\\', '"']
  else if c == '\\' then ['\\', '\\']
  else if c == '\n' then ['\\', 'n']
  else if c == '\t' then ['\\', 't']
  else if c == '\r' then ['\\', 'r']
  else if c == '<' then "\\u003c".toList
  else if c == '>' then "\\u003e".toList
  else if c == '&' then "\\u0026".toList
  else [c]

/-- A JSON string literal for `s`, quotes included. -/
def quoteJson (s : String) : List Char :=
  '"' :: ((s.toList.map escapeJsonChar).flatten ++ ['"'])

mutual
/-- `json.Marshal` on a `GoVal`. Object fields are emitted in list order;
Go sorts map keys, so `GoVal.obj` lists are kept key-sorted by convention
(no claim settled here depends on object marshalling). -/
def marshalVal : GoVal → List Char
  | GoVal.null => "null".toList
  | GoVal.bool b => if b then "true".toList else "false".toList
  | GoVal.int n => (toString n).toList
  | GoVal.str s => quoteJson s
  | GoVal.arr xs => Char.ofNat 91 :: (marshalList xs ++ [Char.ofNat 93])
  | GoVal.obj kvs => Char.ofNat 123 :: (marshalObj kvs ++ [Char.ofNat 125])

/-- Comma-separated marshalling of array elements. -/
def marshalList : List GoVal → List Char
  | [] => []
  | [x] => marshalVal x
  | x :: y :: rest => marshalVal x ++ (',' :: marshalList (y :: rest))

/-- Comma-separated marshalling of object members. -/
def marshalObj : List (String × GoVal) → List Char
  | [] => []
  | [(k, v)] => quoteJson k ++ (':' :: marshalVal v)
  | (k, v) :: kv2 :: rest =>
      (quoteJson k ++ (':' :: marshalVal v)) ++ (',' :: marshalObj (kv2 :: rest))
end

/-- `json.Marshal(payload)` where `payload : interface{}` may be `nil`:
a `nil` interface marshals to the four bytes `null`. On the value forms
`GoVal` represents, `json.Marshal` cannot fail. -/
def jsonMarshal : Option GoVal → List Char
  | none => "null".toList
  | some v => marshalVal v

/-! ### Encoders (`encoders.go`) -/

/-- `DataEncoder` from the client file: payload (possibly `nil`) to an
optional byte stream (a `nil` `io.Reader` is `none`) or an error. -/
def DataEncoder : Type :=
  Option GoVal → Except GoError (Option (List Char))

/-- `JsonEncoder` from `encoders.go`: `json.Marshal` the payload and wrap
the bytes in a buffer (always a present, non-`nil` reader). -/
def JsonEncoder : DataEncoder := fun payload =>
  Except.ok (some (jsonMarshal payload))

/-- `GobEncoder` from `encoders.go`. The gob wire format itself is outside
this embedding, so the underlying `gob.Encoder.Encode` is a parameter
`enc`; the function's own structure is modelled exactly: a `nil` payload
returns `(nil, nil)` before any encoding, an encode failure is wrapped,
and otherwise the buffer is returned. -/
def GobEncoder (enc : GoVal → Except GoError (List Char)) : DataEncoder :=
  fun payload =>
    match payload with
    | none => Except.ok none
    | some v =>
      match enc v with
      | Except.error e => Except.error (GoError.wrapped "gob enc.Encode" e)
      | Except.ok bs => Except.ok (some bs)

/-! ### JSON parsing (`encoding/json` as used by `JsonDecoder`) -/

/-- Skip JSON whitespace. -/
def skipWs : List Char → List Char
  | [] => []
  | c :: rest =>
    if c == ' ' || c == '\t' || c == '\n' || c == '\r' then skipWs rest
    else c :: rest

/-- Value of a hexadecimal digit. -/
def hexVal (c : Char) : Option Nat :=
  let n := c.toNat
  if 48 ≤ n && n ≤ 57 then some (n - 48)
  else if 65 ≤ n && n ≤ 70 then some (n - 55)
  else if 97 ≤ n && n ≤ 102 then some (n - 87)
  else none

/-- Parse the body of a JSON string (the opening quote already consumed),
returning the decoded characters and the remaining input after the
closing quote. -/
def parseStrBody : Nat → List Char → Option (List Char × List Char)
  | 0, _ => none
  | _ + 1, [] => none
  | fuel + 1, c :: rest =>
    if c == '"' then some ([], rest)
    else if c == '\\' then
      match rest with
      | [] => none
      | e :: rest2 =>
        if e == 'u' then
          match rest2 with
          | a :: b :: d :: f :: rest3 =>
            match hexVal a, hexVal b, hexVal d, hexVal f with
            | some x1, some x2, some x3, some x4 =>
              match parseStrBody fuel rest3 with
              | some (cs, rem) =>
                some (Char.ofNat (((x1 * 16 + x2) * 16 + x3) * 16 + x4) :: cs, rem)
              | none => none
            | _, _, _, _ => none
          | _ => none
        else
          match (if e == '"' then some '"'
                 else if e == '\\' then some '\\'
                 else if e == '/' then some '/'
                 else if e == 'n' then some '\n'
                 else if e == 't' then some '\t'
                 else if e == 'r' then some '\r'
                 else if e == 'b' then some (Char.ofNat 8)
                 else if e == 'f' then some (Char.ofNat 12)
                 else none) with
          | some d =>
            match parseStrBody fuel rest2 with
            | some (cs, rem) => some (d :: cs, rem)
            | none => none
          | none => none
    else
      match parseStrBody fuel rest with
      | some (cs, rem) => some (c :: cs, rem)
      | none => none

/-- Take a maximal run of decimal digits. -/
def takeDigits : List Char → (List Char × List Char)
  | [] => ([], [])
  | c :: rest =>
    if 48 ≤ c.toNat && c.toNat ≤ 57 then
      let p := takeDigits rest
      (c :: p.1, p.2)
    else ([], c :: rest)

/-- Decimal digits to a natural number. -/
def digitsToNat (ds : List Char) : Nat :=
  ds.foldl (fun acc c => acc * 10 + (c.toNat - 48)) 0

/-- Parse a JSON integer literal. Fractional and exponent forms are not
modelled (no claim settled here involves them; the `Err.Code` target
field is an integer). -/
def parseNum (input : List Char) : Option (Int × List Char) :=
  let p : Bool × List Char :=
    match input with
    | c :: r => if c == '-' then (true, r) else (false, input)
    | [] => (false, [])
  match takeDigits p.2 with
  | ([], _) => none
  | (ds, rem) =>
    let n : Int := Int.ofNat (digitsToNat ds)
    let val : Int := if p.1 then -n else n
    match rem with
    | c :: _ =>
      if c == '.' || c == 'e' || c == 'E' then none else some (val, rem)
    | [] => some (val, rem)

mutual
/-- Recursive-descent parser for one JSON value (fuel-indexed). -/
def parseVal : Nat → List Char → Option (GoVal × List Char)
  | 0, _ => none
  | fuel + 1, input =>
    match skipWs input with
    | [] => none
    | c :: rest =>
      if c == 'n' then
        match rest with
        | u :: l1 :: l2 :: rem =>
          if u == 'u' && l1 == 'l' && l2 == 'l' then some (GoVal.null, rem)
          else none
        | _ => none
      else if c == 't' then
        match rest with
        | r :: u :: e :: rem =>
          if r == 'r' && u == 'u' && e == 'e' then some (GoVal.bool true, rem)
          else none
        | _ => none
      else if c == 'f' then
        match rest with
        | a :: l :: s :: e :: rem =>
          if a == 'a' && l == 'l' && s == 's' && e == 'e' then
            some (GoVal.bool false, rem)
          else none
        | _ => none
      else if c == '"' then
        match parseStrBody (rest.length + 1) rest with
        | some (cs, rem) => some (GoVal.str cs.asString, rem)
        | none => none
      else if c == Char.ofNat 91 then
        match skipWs rest with
        | d :: rem =>
          if d == Char.ofNat 93 then some (GoVal.arr [], rem)
          else
            match parseElems fuel (d :: rem) with
            | some (vs, rem2) => some (GoVal.arr vs, rem2)
            | none => none
        | [] => none
      else if c == Char.ofNat 123 then
        match skipWs rest with
        | d :: rem =>
          if d == Char.ofNat 125 then some (GoVal.obj [], rem)
          else
            match parseMembers fuel (d :: rem) with
            | some (kvs, rem2) => some (GoVal.obj kvs, rem2)
            | none => none
        | [] => none
      else
        match parseNum (c :: rest) with
        | some (n, rem) => some (GoVal.int n, rem)
        | none => none

/-- Parse a non-empty, comma-separated list of array elements up to the
closing bracket. -/
def parseElems : Nat → List Char → Option (List GoVal × List Char)
  | 0, _ => none
  | fuel + 1, input =>
    match parseVal fuel input with
    | none => none
    | some (v, rem) =>
      match skipWs rem with
      | c :: rest =>
        if c == ',' then
          match parseElems fuel rest with
          | some (vs, rem2) => some (v :: vs, rem2)
          | none => none
        else if c == Char.ofNat 93 then some ([v], rest)
        else none
      | [] => none

/-- Parse a non-empty, comma-separated list of object members up to the
closing brace. -/
def parseMembers : Nat → List Char → Option (List (String × GoVal) × List Char)
  | 0, _ => none
  | fuel + 1, input =>
    match skipWs input with
    | c :: rest =>
      if c == '"' then
        match parseStrBody (rest.length + 1) rest with
        | some (ks, rem) =>
          match skipWs rem with
          | d :: rem2 =>
            if d == ':' then
              match parseVal fuel rem2 with
              | none => none
              | some (v, rem3) =>
                match skipWs rem3 with
                | e :: rem4 =>
                  if e == ',' then
                    match parseMembers fuel rem4 with
                    | some (kvs, rem5) => some ((ks.asString, v) :: kvs, rem5)
                    | none => none
                  else if e == Char.ofNat 125 then
                    some ([(ks.asString, v)], rem4)
                  else none
                | [] => none
            else none
          | [] => none
        | none => none
      else none
    | [] => none
end

/-- One `json.Decoder.Decode` step: empty input is `EOF`, malformed input
is a decode error, and trailing input after the first value is ignored
(as `Decoder.Decode` does). Error message texts of the standard library
are abstracted. -/
def jsonDecodeValue (bs : List Char) : Except String GoVal :=
  match skipWs bs with
  | [] => Except.error "EOF"
  | input =>
    match parseVal (input.length + 1) input with
    | some (v, _) => Except.ok v
    | none => Except.error "invalid JSON"

/-! ### The client's JSON codec (`JsonDecoder` file) -/

/-- Go's `encoding/json` matches field names case-insensitively (ASCII). -/
def toLowerAscii (s : String) : String :=
  (s.toList.map (fun c =>
    if 65 ≤ c.toNat && c.toNat ≤ 90 then Char.ofNat (c.toNat + 32) else c)).asString

/-- Unmarshal one object member into an `Err` target: `code` must be an
integer, `message` a string, `meta` takes any value (`null` leaves the
field `nil`), unknown keys are ignored, and a JSON `null` member value
leaves a scalar field unchanged. -/
def setErrField (e : Err) (k : String) (v : GoVal) : Except String Err :=
  if toLowerAscii k == "code" then
    match v with
    | GoVal.int n => Except.ok { e with Code := n }
    | GoVal.null => Except.ok e
    | _ => Except.error "cannot unmarshal value into field code of type int"
  else if toLowerAscii k == "message" then
    match v with
    | GoVal.str s => Except.ok { e with Message := s }
    | GoVal.null => Except.ok e
    | _ => Except.error "cannot unmarshal value into field message of type string"
  else if toLowerAscii k == "meta" then
    match v with
    | GoVal.null => Except.ok { e with Meta := none }
    | v2 => Except.ok { e with Meta := some v2 }
  else Except.ok e

/-- `json.Unmarshal` of a parsed value into an `Err` struct: `null` leaves
the zero value, an object is folded member by member (later duplicates
overwrite), anything else is a type error. -/
def unmarshalErr (v : GoVal) : Except String Err :=
  match v with
  | GoVal.null => Except.ok { Code := 0, Message := "", Meta := none }
  | GoVal.obj kvs =>
    kvs.foldlM (fun e kv => setErrField e kv.1 kv.2)
      { Code := 0, Message := "", Meta := none }
  | _ => Except.error "cannot unmarshal value into Go value of type Err"

/-- `DataDecoder` from the client file. The Go decoder is one polymorphic
function `func(io.Reader, interface{}) error`; the shallow embedding
splits it by the two target types it is used at in this package: the
`Err` error shape and an arbitrary result value. -/
structure DataDecoder where
  decodeErr : List Char → Except GoError Err
  decodeVal : List Char → Except GoError GoVal

/-- `JsonDecoder` from the decoder file: `json.NewDecoder(reader).Decode`,
failures wrapped as `fmt.Errorf("json dec.Decode: %s", err)`. -/
def JsonDecoder : DataDecoder :=
  { decodeErr := fun bs =>
      match jsonDecodeValue bs with
      | Except.error msg => Except.error (GoError.str ("json dec.Decode: " ++ msg))
      | Except.ok v =>
        match unmarshalErr v with
        | Except.error msg => Except.error (GoError.str ("json dec.Decode: " ++ msg))
        | Except.ok e => Except.ok e,
    decodeVal := fun bs =>
      match jsonDecodeValue bs with
      | Except.error msg => Except.error (GoError.str ("json dec.Decode: " ++ msg))
      | Except.ok v => Except.ok v }

/-! ### HTTP headers (`net/http` / `net/textproto` as used by the client) -/

/-- `validHeaderFieldByte` of `net/textproto`: the HTTP token characters. -/
def validHeaderFieldByte (n : Nat) : Bool :=
  (48 ≤ n && n ≤ 57) || (65 ≤ n && n ≤ 90) || (97 ≤ n && n ≤ 122) ||
  n == 33 || n == 35 || n == 36 || n == 37 || n == 38 || n == 39 ||
  n == 42 || n == 43 || n == 45 || n == 46 || n == 94 || n == 95 ||
  n == 96 || n == 124 || n == 126

/-- The canonicalisation loop of `CanonicalMIMEHeaderKey`: uppercase a
letter at the start or after a hyphen, lowercase it otherwise. -/
def canonChars : Bool → List Char → List Char
  | _, [] => []
  | upper, c :: rest =>
    let n := c.toNat
    let c2 :=
      if upper && (97 ≤ n && n ≤ 122) then Char.ofNat (n - 32)
      else if !upper && (65 ≤ n && n ≤ 90) then Char.ofNat (n + 32)
      else c
    c2 :: canonChars (c2 == '-') rest

/-- `textproto.CanonicalMIMEHeaderKey`: a key containing an invalid byte
is returned unchanged, otherwise it is canonicalised. -/
def canonicalMIMEHeaderKey (s : String) : String :=
  if s.toList.all (fun c => validHeaderFieldByte c.toNat) then
    (canonChars true s.toList).asString
  else s

/-- An `http.Header` as a finite map from canonical keys to (single)
values; this client only ever uses `Header.Set`. -/
def Header : Type := String → Option String

/-- `http.Header.Set`: store the value under the canonicalised key,
replacing any previous value. -/
def headerSet (h : Header) (k v : String) : Header :=
  fun q => if q = canonicalMIMEHeaderKey k then some v else h q

/-- Header lookup by canonicalised key (`none` when the header is absent). -/
def headerGet (h : Header) (k : String) : Option String :=
  h (canonicalMIMEHeaderKey k)

/-! ### Contexts (`context` package as used by the client) -/

/-- A `context.Context` value chain, innermost `WithValue` pair first.
`context.Background()` is the empty list. -/
def Ctx : Type := List (GoVal × GoVal)

/-- Go `==` on interface values of comparable scalar type: equal dynamic
type and equal value. Composite keys are never used by this client. -/
def goValEqScalar : GoVal → GoVal → Bool
  | GoVal.null, GoVal.null => true
  | GoVal.bool a, GoVal.bool b => a == b
  | GoVal.int a, GoVal.int b => a == b
  | GoVal.str a, GoVal.str b => a == b
  | _, _ => false

/-- `ctx.Value(key)`: the innermost value stored under an `==`-equal key. -/
def ctxValue (ctx : Ctx) (key : GoVal) : Option GoVal :=
  (ctx.find? (fun kv => goValEqScalar kv.1 key)).map (fun kv => kv.2)

/-! ### The client (`HttpClient`) -/

/-- An `*http.Response` as far as this client inspects it. -/
structure HttpResponse where
  statusCode : Int
  body : List Char

/-- The `HttpClient` struct. The `httpClient2 *http.Client` field is
represented by the configuration it carries (timeout, pool sizing). -/
structure HttpClient where
  baseUrl : String
  errorHandler : Option (List Char → GoError)
  isError : Option (HttpResponse → Bool)
  headers : List (String × String)
  timeout : Int
  maxIdleConnsPerHost : Int
  requestPayloadEncoder : DataEncoder
  requestPayloadDecoder : DataDecoder
  contextRequestId : String
  headerKeyRequestID : String
  debugMode : Bool

/-- `HttpClientParams`, with Go zero values as field defaults. -/
structure HttpClientParams where
  BaseUrl : String := ""
  ErrorHandler : Option (List Char → GoError) := none
  IsError : Option (HttpResponse → Bool) := none
  Headers : List (String × String) := []
  Timeout : Int := 0
  RequestPayloadEncoder : Option DataEncoder := none
  RequestPayloadDecoder : Option DataDecoder := none
  MaxIdleConnsPerHost : Int := 0
  ContextRequestId : String := ""
  HeaderKeyRequestID : String := ""
  DebugMode : Bool := false

/-- `NewHttpClient`: copy the params, default the pool size to 100 and the
codecs to JSON when absent. -/
def NewHttpClient (params : HttpClientParams) : HttpClient :=
  { baseUrl := params.BaseUrl
    errorHandler := params.ErrorHandler
    isError := params.IsError
    headers := params.Headers
    timeout := params.Timeout
    maxIdleConnsPerHost :=
      if params.MaxIdleConnsPerHost = 0 then 100 else params.MaxIdleConnsPerHost
    requestPayloadEncoder := params.RequestPayloadEncoder.getD JsonEncoder
    requestPayloadDecoder := params.RequestPayloadDecoder.getD JsonDecoder
    contextRequestId := params.ContextRequestId
    headerKeyRequestID := params.HeaderKeyRequestID
    debugMode := params.DebugMode }

/-- `SetHeaders`: the one mutating method on the client; it replaces the
default-headers field (mutation of the receiver is modelled as returning
the updated client value). -/
def HttpClient.SetHeaders (c : HttpClient) (headers : List (String × String)) : HttpClient :=
  { c with headers := headers }

/-- `RequestOptions`, with Go zero values as field defaults. `Result` is
modelled by whether a non-`nil` result target was supplied, and
`AfterCallback` by whether a callback was supplied (the callback itself
only observes the request and response). -/
structure RequestOptions where
  ctx : Option Ctx := none
  method : String := ""
  url : String := ""
  headers : List (String × String) := []
  payload : Option GoVal := none
  result : Bool := false
  requestPayloadEncoder : Option DataEncoder := none
  requestPayloadDecoder : Option DataDecoder := none
  urlParams : List (String × String) := []
  afterCallback : Bool := false

/-- `setDefaultOptions`: fill the context, method and codecs from the
client when absent. -/
def setDefaultOptions (c : HttpClient) (opt : RequestOptions) : RequestOptions :=
  { opt with
    ctx := some (opt.ctx.getD [])
    method := if opt.method = "" then "GET" else opt.method
    requestPayloadEncoder := some (opt.requestPayloadEncoder.getD c.requestPayloadEncoder)
    requestPayloadDecoder := some (opt.requestPayloadDecoder.getD c.requestPayloadDecoder) }

/-- `defaultIsError`: status below 200 (`http.StatusOK`) or at least 400
(`http.StatusBadRequest`). Note that the method never consults the
client's `isError` field. -/
def defaultIsError (_c : HttpClient) (resp : HttpResponse) : Bool :=
  resp.statusCode < 200 || resp.statusCode ≥ 400

/-- `defaultErrorHandler`: a configured error-body handler is used as is;
otherwise the body is decoded into an `Err` with the client's decoder,
and a decode failure panics (modelled as the `Except.error` side). -/
def defaultErrorHandler (c : HttpClient) (reader : List Char) : Except GoError GoError :=
  match c.errorHandler with
  | some h => Except.ok (h reader)
  | none =>
    match c.requestPayloadDecoder.decodeErr reader with
    | Except.error err => Except.error err
    | Except.ok e => Except.ok (GoError.ofErr e)

/-- `fromContextRequestId`: `ctx.Value(c.contextRequestId).(string)` — the
comma-ok assertion yields the string, or nothing when the value is absent
or not a string. -/
def fromContextRequestId (c : HttpClient) (ctx : Ctx) : Option String :=
  match ctxValue ctx (GoVal.str c.contextRequestId) with
  | some (GoVal.str s) => some s
  | _ => none

/-- The header-construction steps of `DoRequestWithOptions`, in source
order: the fixed `Accept` header, the request-id header when the context
carries one, the client default headers, then the per-call headers (each
later `Set` overwriting earlier ones). -/
def buildHeaders (c : HttpClient) (ctx : Ctx) (optHeaders : List (String × String)) : Header :=
  let h0 : Header := fun _ => none
  let h1 := headerSet h0 "Accept" "application/json; charset=utf-8"
  let h2 :=
    match fromContextRequestId c ctx with
    | some rid => headerSet h1 c.headerKeyRequestID rid
    | none => h1
  let h3 := c.headers.foldl (fun h kv => headerSet h kv.1 kv.2) h2
  optHeaders.foldl (fun h kv => headerSet h kv.1 kv.2) h3

/-- The outgoing `*http.Request` as far as this embedding needs it (query
encoding of `urlParams` is not modelled; no claim involves it). -/
structure HttpRequest where
  method : String
  url : String
  header : Header
  body : Option (List Char)

/-- Observable events of one `DoRequestWithOptions` call, in order:
whether the after-callback fired and how the response was classified. -/
inductive Event where
  | callbackInvoked : Event
  | classified : Bool → Event

/-- Outcome of one `DoRequestWithOptions` call: a panic escaping the
function, an error return, or a successful response. -/
inductive DoResult where
  | panicked : GoError → DoResult
  | failed : GoError → DoResult
  | succeeded : HttpResponse → DoResult

/-- `DoRequestWithOptions`, with the transport (`c.httpClient2.Do`) as a
parameter. Returns the outcome together with the ordered event trace.
The debug-mode curl/timing strings are runtime-formatted and abstracted
to fixed markers; on the classified-error path the source discards its
debug wrapping by reassigning `err`, which is modelled faithfully by not
wrapping there. -/
def DoRequestWithOptions (c : HttpClient) (options : RequestOptions)
    (transport : HttpRequest → Except GoError HttpResponse) : DoResult × List Event :=
  let o := setDefaultOptions c options
  let enc := o.requestPayloadEncoder.getD c.requestPayloadEncoder
  let dec := o.requestPayloadDecoder.getD c.requestPayloadDecoder
  match enc o.payload with
  | Except.error e =>
    (DoResult.failed (GoError.wrapped "requestPayloadEncoder" e), [])
  | Except.ok payloadReader =>
    let req : HttpRequest :=
      { method := o.method
        url := c.baseUrl ++ o.url
        header := buildHeaders c (o.ctx.getD []) o.headers
        body := payloadReader }
    match transport req with
    | Except.error e =>
      let e2 := if c.debugMode then GoError.wrapped "request took" (GoError.wrapped "curl" e) else e
      (DoResult.failed (GoError.wrapped "do http request" e2), [])
    | Except.ok resp =>
      let ev1 := if o.afterCallback then [Event.callbackInvoked] else []
      if defaultIsError c resp then
        let evs := ev1 ++ [Event.classified true]
        match defaultErrorHandler c resp.body with
        | Except.error p => (DoResult.panicked p, evs)
        | Except.ok herr =>
          (DoResult.failed (GoError.wrapped
            ("http status code=" ++ toString resp.statusCode ++ " curl") herr), evs)
      else
        let evs := ev1 ++ [Event.classified false]
        if o.result then
          match dec.decodeVal resp.body with
          | Except.error e =>
            let e2 := if c.debugMode then GoError.wrapped "request took" (GoError.wrapped "curl" e) else e
            (DoResult.failed (GoError.wrapped "decode resp.Body" e2), evs)
          | Except.ok _ => (DoResult.succeeded resp, evs)
        else (DoResult.succeeded resp, evs)

/-! ### Helper lemmas on headers -/

/-- Setting a key and reading it back yields the value just set. -/
theorem headerGet_headerSet_same (h : Header) (k v : String) :
    headerGet (headerSet h k v) k = some v := by
  simp [headerGet, headerSet]

/-- Setting one key leaves lookups of keys with a different canonical form
unchanged. -/
theorem headerGet_headerSet_other (h : Header) (k v k2 : String)
    (hne : canonicalMIMEHeaderKey k2 ≠ canonicalMIMEHeaderKey k) :
    headerGet (headerSet h k v) k2 = headerGet h k2 := by
  simp [headerGet, headerSet, hne]

/-- Folding `Header.Set` over a list none of whose keys canonicalise to
the key being looked up leaves that lookup unchanged. -/
theorem headerGet_foldl_headerSet (l : List (String × String)) (h : Header) (k : String)
    (hl : ∀ kv ∈ l, canonicalMIMEHeaderKey kv.1 ≠ canonicalMIMEHeaderKey k) :
    headerGet (l.foldl (fun acc kv => headerSet acc kv.1 kv.2) h) k = headerGet h k := by
  induction l generalizing h with
  | nil => rfl
  | cons kv rest ih =>
    simp only [List.foldl_cons]
    rw [ih (headerSet h kv.1 kv.2) (fun x hx => hl x (List.mem_cons_of_mem _ hx))]
    exact headerGet_headerSet_other h kv.1 kv.2 k
      (Ne.symm (hl kv (List.mem_cons_self _ _)))

/-- The canonical MIME form of `Accept` is itself. -/
theorem canon_Accept : canonicalMIMEHeaderKey "Accept" = "Accept" := by decide

/-! ### Claim C7 -/

/-- C7: the default classifier returns error exactly for status codes
below 200 or at least 400, and success exactly for status codes in
[200, 399]. -/
theorem C7_default_classifier_range (c : HttpClient) (resp : HttpResponse) :
    (defaultIsError c resp = true ↔
      (resp.statusCode < 200 ∨ 400 ≤ resp.statusCode)) ∧
    (defaultIsError c resp = false ↔
      (200 ≤ resp.statusCode ∧ resp.statusCode ≤ 399)) := by
  simp [defaultIsError]
  omega

/-! ### Claim C9 -/

/-- C9: for `Err` values built by `NewErr`, `e1.Is e2` holds exactly when
the codes agree, whatever the messages and metadata are. -/
theorem C9_err_is_code_equality (c1 c2 : Int) (m1 m2 : String)
    (t1 t2 : Option GoVal) :
    (NewErr c1 m1 t1).Is (GoError.ofErr (NewErr c2 m2 t2)) = true ↔ c1 = c2 := by
  simp [Err.Is, NewErr]

/-! ### Claim C4 -/

/-- C4 counterexample: for a `nil` payload the JSON encoder does not
return an empty or absent stream — it returns the four-byte stream
`null` (and no error), so the request body is `null`, not empty. -/
theorem C4_counterexample :
    JsonEncoder none = Except.ok (some ("null".toList)) ∧
    "null".toList ≠ ([] : List Char) :=
  ⟨rfl, by decide⟩

/-- C4 amended: for a `nil` payload, `GobEncoder` returns an absent
stream with no error (for every underlying gob encoder), while
`JsonEncoder` returns the four-byte stream `null` with no error. -/
theorem C4_amended :
    (∀ enc, GobEncoder enc none = Except.ok none) ∧
    JsonEncoder none = Except.ok (some ("null".toList)) :=
  ⟨fun _ => rfl, rfl⟩

/-! ### Claim C5 -/

/-- C5 counterexample: `SetHeaders` is available after construction and
changes the client's default-headers configuration field. -/
theorem C5_counterexample :
    ((NewHttpClient {}).SetHeaders [("Header1", "v")]).headers = [("Header1", "v")] ∧
    (NewHttpClient {}).headers = [] ∧
    [("Header1", "v")] ≠ ([] : List (String × String)) :=
  ⟨rfl, rfl, by decide⟩

/-- C5 amended: every configuration field except the default headers is
immutable after construction; `SetHeaders` replaces the headers field
and changes nothing else. -/
theorem C5_amended (c : HttpClient) (hs : List (String × String)) :
    (c.SetHeaders hs).headers = hs ∧
    (c.SetHeaders hs).baseUrl = c.baseUrl ∧
    (c.SetHeaders hs).errorHandler = c.errorHandler ∧
    (c.SetHeaders hs).isError = c.isError ∧
    (c.SetHeaders hs).timeout = c.timeout ∧
    (c.SetHeaders hs).maxIdleConnsPerHost = c.maxIdleConnsPerHost ∧
    (c.SetHeaders hs).requestPayloadEncoder = c.requestPayloadEncoder ∧
    (c.SetHeaders hs).requestPayloadDecoder = c.requestPayloadDecoder ∧
    (c.SetHeaders hs).contextRequestId = c.contextRequestId ∧
    (c.SetHeaders hs).headerKeyRequestID = c.headerKeyRequestID ∧
    (c.SetHeaders hs).debugMode = c.debugMode :=
  ⟨rfl, rfl, rfl, rfl, rfl, rfl, rfl, rfl, rfl, rfl, rfl⟩

/-! ### Claim C1 -/

/-- A client built with a custom classifier that never reports an error,
and a trivial error-body handler. -/
def clientC1 : HttpClient :=
  NewHttpClient
    { IsError := some (fun _ => false)
      ErrorHandler := some (fun _ => GoError.str "handled") }

/-- A 400 response with an empty body. -/
def respC1 : HttpResponse := { statusCode := 400, body := [] }

/-- C1: the client's custom classifier is never consulted. With a
classifier that reports every response as a success, a 400 response is
still classified as an error — `DoRequestWithOptions` calls
`defaultIsError`, which ignores the `isError` field, and the call fails
with the classified-error result. -/
theorem C1_custom_classifier_never_consulted :
    (clientC1.isError.getD (fun _ => true)) respC1 = false ∧
    defaultIsError clientC1 respC1 = true ∧
    (DoRequestWithOptions clientC1 {} (fun _ => Except.ok respC1)).1 =
      DoResult.failed (GoError.wrapped "http status code=400 curl"
        (GoError.str "handled")) :=
  ⟨rfl, rfl, rfl⟩

/-! ### Claim C2 -/

/-- A client whose error-body handler is trivial, for exercising the
classified-error path. -/
def clientC2 : HttpClient :=
  NewHttpClient { ErrorHandler := some (fun _ => GoError.str "handled") }

/-- C2 counterexample: on a call whose response is classified as an
error (status 500), the after-callback does fire — the event trace shows
the callback invocation, followed by the error classification. -/
theorem C2_counterexample :
    defaultIsError clientC2 { statusCode := 500, body := [] } = true ∧
    (DoRequestWithOptions clientC2 { afterCallback := true }
        (fun _ => Except.ok { statusCode := 500, body := [] })).2 =
      [Event.callbackInvoked, Event.classified true] :=
  ⟨rfl, rfl⟩

/-- C2 amended: whenever the transport round-trip succeeds (and the
payload encoded), a configured after-callback is invoked on every call —
before classification, hence also on calls whose response is then
classified as an error. -/
theorem C2_amended_callback_fires_before_classification
    (c : HttpClient) (o : RequestOptions) (resp : HttpResponse)
    (r : Option (List Char))
    (hcb : o.afterCallback = true)
    (henc : (o.requestPayloadEncoder.getD c.requestPayloadEncoder) o.payload =
      Except.ok r) :
    (DoRequestWithOptions c o (fun _ => Except.ok resp)).2 =
      [Event.callbackInvoked, Event.classified (defaultIsError c resp)] := by
  by_cases hcl : defaultIsError c resp
  · rcases hdl : defaultErrorHandler c resp.body with p | herr <;>
      simp [DoRequestWithOptions, setDefaultOptions, henc, hcb, hcl, hdl]
  · rcases hdv : (o.requestPayloadDecoder.getD c.requestPayloadDecoder).decodeVal
        resp.body with e | v <;>
      rcases hres : o.result <;>
      simp [DoRequestWithOptions, setDefaultOptions, henc, hcb, hcl, hdv, hres]

/-- C2 amended, witnessed at a concrete input: default client, callback
set, `nil` payload, a 200 response. -/
theorem C2_amended_witness :
    ({ afterCallback := true } : RequestOptions).afterCallback = true ∧
    (JsonEncoder : DataEncoder) none = Except.ok (some ("null".toList)) ∧
    (DoRequestWithOptions (NewHttpClient {}) { afterCallback := true }
        (fun _ => Except.ok { statusCode := 200, body := [] })).2 =
      [Event.callbackInvoked,
       Event.classified (defaultIsError (NewHttpClient {}) { statusCode := 200, body := [] })] :=
  ⟨rfl, rfl,
    C2_amended_callback_fires_before_classification (NewHttpClient {})
      { afterCallback := true } { statusCode := 200, body := [] }
      (some ("null".toList)) rfl rfl⟩

/-! ### Claim C3 -/

/-- A client-default decoder that decodes every error body to code 1. -/
def decClientDefault : DataDecoder :=
  { decodeErr := fun _ => Except.ok (NewErr 1 "client" none)
    decodeVal := fun _ => Except.ok GoVal.null }

/-- A per-call override decoder that decodes every error body to code 2. -/
def decPerCall : DataDecoder :=
  { decodeErr := fun _ => Except.ok (NewErr 2 "override" none)
    decodeVal := fun _ => Except.ok GoVal.null }

/-- A client whose default decoder is `decClientDefault` and which has no
custom error-body handler. -/
def clientC3 : HttpClient :=
  NewHttpClient { RequestPayloadDecoder := some decClientDefault }

/-- C3 counterexample: with a per-call decoder override (which would
yield code 2), a classified-error response is decoded with the client
default decoder instead — the returned application error carries code 1,
not the code the resolved (per-call) decoder produces. -/
theorem C3_counterexample :
    (DoRequestWithOptions clientC3 { requestPayloadDecoder := some decPerCall }
        (fun _ => Except.ok { statusCode := 404, body := [] })).1 =
      DoResult.failed (GoError.wrapped "http status code=404 curl"
        (GoError.ofErr (NewErr 1 "client" none))) ∧
    decPerCall.decodeErr [] = Except.ok (NewErr 2 "override" none) ∧
    (1 : Int) ≠ 2 :=
  ⟨rfl, rfl, by decide⟩

/-- C3 amended: on the classified-error path of a client with no custom
error-body handler, the error body is decoded into the shared `Err`
shape using the client's default decoder — for every call, including
calls that supply a per-call decoder override (the override is ignored
on this path). -/
theorem C3_amended_error_body_uses_client_decoder
    (c : HttpClient) (o : RequestOptions) (resp : HttpResponse)
    (r : Option (List Char)) (e : Err)
    (hh : c.errorHandler = none)
    (henc : (o.requestPayloadEncoder.getD c.requestPayloadEncoder) o.payload =
      Except.ok r)
    (hcl : defaultIsError c resp = true)
    (hdec : c.requestPayloadDecoder.decodeErr resp.body = Except.ok e) :
    (DoRequestWithOptions c o (fun _ => Except.ok resp)).1 =
      DoResult.failed (GoError.wrapped
        ("http status code=" ++ toString resp.statusCode ++ " curl")
        (GoError.ofErr e)) := by
  have hdl : defaultErrorHandler c resp.body = Except.ok (GoError.ofErr e) := by
    simp [defaultErrorHandler, hh, hdec]
  simp [DoRequestWithOptions, setDefaultOptions, henc, hcl, hdl]

/-- C3 amended, witnessed at a concrete input: the client of the
counterexample, a per-call override, and a 404 response. -/
theorem C3_amended_witness :
    clientC3.errorHandler = none ∧
    clientC3.requestPayloadDecoder.decodeErr [] =
      Except.ok (NewErr 1 "client" none) ∧
    (DoRequestWithOptions clientC3 { requestPayloadDecoder := some decPerCall }
        (fun _ => Except.ok { statusCode := 404, body := [] })).1 =
      DoResult.failed (GoError.wrapped
        ("http status code=" ++ toString (404 : Int) ++ " curl")
        (GoError.ofErr (NewErr 1 "client" none))) :=
  ⟨rfl, rfl,
    C3_amended_error_body_uses_client_decoder clientC3
      { requestPayloadDecoder := some decPerCall }
      { statusCode := 404, body := [] } (some ("null".toList))
      (NewErr 1 "client" none) rfl rfl rfl rfl⟩

/-! ### Claim C6 -/

/-- C6: on the classified-error path of a client with no custom
error-body handler, a failure of the decoder on the error body makes the
request executor panic with that failure rather than return it. -/
theorem C6_error_decode_failure_panics
    (c : HttpClient) (o : RequestOptions) (resp : HttpResponse)
    (r : Option (List Char)) (e : GoError)
    (hh : c.errorHandler = none)
    (henc : (o.requestPayloadEncoder.getD c.requestPayloadEncoder) o.payload =
      Except.ok r)
    (hcl : defaultIsError c resp = true)
    (hdec : c.requestPayloadDecoder.decodeErr resp.body = Except.error e) :
    (DoRequestWithOptions c o (fun _ => Except.ok resp)).1 = DoResult.panicked e := by
  have hdl : defaultErrorHandler c resp.body = Except.error e := by
    simp [defaultErrorHandler, hh, hdec]
  simp [DoRequestWithOptions, setDefaultOptions, henc, hcl, hdl]

/-- C6 witnessed at a concrete input: all-default client (JSON codec, no
error handler), a 500 response with an empty body — the JSON decode of
the empty error body fails with EOF and the call panics. -/
theorem C6_error_decode_failure_panics_witness :
    (NewHttpClient {}).errorHandler = none ∧
    JsonDecoder.decodeErr [] =
      Except.error (GoError.str "json dec.Decode: EOF") ∧
    (DoRequestWithOptions (NewHttpClient {}) {}
        (fun _ => Except.ok { statusCode := 500, body := [] })).1 =
      DoResult.panicked (GoError.str "json dec.Decode: EOF") :=
  ⟨rfl, rfl,
    C6_error_decode_failure_panics (NewHttpClient {}) {}
      { statusCode := 500, body := [] } (some ("null".toList))
      (GoError.str "json dec.Decode: EOF") rfl rfl rfl rfl⟩

/-! ### Claim C8 -/

/-- C8 counterexample: a per-call header named `Accept` overwrites the
fixed `Accept` header — the outgoing request then carries
`Accept: text/plain`, not `application/json; charset=utf-8`. -/
theorem C8_counterexample :
    headerGet (buildHeaders (NewHttpClient {}) [] [("Accept", "text/plain")])
        "Accept" = some "text/plain" ∧
    "text/plain" ≠ "application/json; charset=utf-8" :=
  ⟨by decide, by decide⟩

/-- C8 amended: `Accept: application/json; charset=utf-8` is set on every
request before the other headers are applied, and it is carried by the
outgoing request whenever no client-default header, per-call header or
request-id header key canonicalises to `Accept`; a later `Header.Set`
under a key canonicalising to `Accept` overwrites it. -/
theorem C8_amended_accept_header_default
    (c : HttpClient) (ctx : Ctx) (oh : List (String × String))
    (h1 : ∀ kv ∈ c.headers, canonicalMIMEHeaderKey kv.1 ≠ "Accept")
    (h2 : ∀ kv ∈ oh, canonicalMIMEHeaderKey kv.1 ≠ "Accept")
    (h3 : canonicalMIMEHeaderKey c.headerKeyRequestID ≠ "Accept") :
    headerGet (buildHeaders c ctx oh) "Accept" =
      some "application/json; charset=utf-8" := by
  simp only [buildHeaders]
  rw [headerGet_foldl_headerSet _ _ _
      (fun kv hk => by rw [canon_Accept]; exact h2 kv hk)]
  rw [headerGet_foldl_headerSet _ _ _
      (fun kv hk => by rw [canon_Accept]; exact h1 kv hk)]
  cases hrid : fromContextRequestId c ctx with
  | none => exact headerGet_headerSet_same _ _ _
  | some rid =>
    rw [headerGet_headerSet_other _ _ _ _ (by rw [canon_Accept]; exact Ne.symm h3)]
    exact headerGet_headerSet_same _ _ _

/-- C8 amended, witnessed at a concrete input: the default client with no
extra headers. -/
theorem C8_amended_witness :
    (∀ kv ∈ (NewHttpClient {}).headers, canonicalMIMEHeaderKey kv.1 ≠ "Accept") ∧
    canonicalMIMEHeaderKey (NewHttpClient {}).headerKeyRequestID ≠ "Accept" ∧
    headerGet (buildHeaders (NewHttpClient {}) [] []) "Accept" =
      some "application/json; charset=utf-8" :=
  ⟨by decide, by decide,
    C8_amended_accept_header_default (NewHttpClient {}) [] []
      (by decide) (by decide) (by decide)⟩

/-! ### Claim C10 -/

/-- C10: provided no other configured header writes to the request-id
key (and that key does not canonicalise to `Accept`), the request-id
header of the outgoing request equals exactly the context's request-id
value: it is set iff the call's context carries a value of string type
under the configured key, and a context value of any non-string type
leaves the header unset. -/
theorem C10_request_id_header_iff_ctx_string
    (c : HttpClient) (ctx : Ctx) (oh : List (String × String))
    (h1 : ∀ kv ∈ c.headers,
      canonicalMIMEHeaderKey kv.1 ≠ canonicalMIMEHeaderKey c.headerKeyRequestID)
    (h2 : ∀ kv ∈ oh,
      canonicalMIMEHeaderKey kv.1 ≠ canonicalMIMEHeaderKey c.headerKeyRequestID)
    (h3 : canonicalMIMEHeaderKey c.headerKeyRequestID ≠ "Accept") :
    headerGet (buildHeaders c ctx oh) c.headerKeyRequestID =
      fromContextRequestId c ctx ∧
    ((fromContextRequestId c ctx).isSome = true ↔
      ∃ s, ctxValue ctx (GoVal.str c.contextRequestId) = some (GoVal.str s)) := by
  constructor
  · simp only [buildHeaders]
    rw [headerGet_foldl_headerSet _ _ _ h2, headerGet_foldl_headerSet _ _ _ h1]
    cases hrid : fromContextRequestId c ctx with
    | none =>
      rw [headerGet_headerSet_other _ _ _ _ (by rw [canon_Accept]; exact h3)]
      rfl
    | some rid => exact headerGet_headerSet_same _ _ _
  · unfold fromContextRequestId
    cases hv : ctxValue ctx (GoVal.str c.contextRequestId) with
    | none => simp
    | some v => cases v <;> simp

/-- A client configured with context request-id key `reqid` and header
key `X-Request-Id`. -/
def clientC10 : HttpClient :=
  NewHttpClient { ContextRequestId := "reqid", HeaderKeyRequestID := "X-Request-Id" }

/-- A context carrying the string `abc-123` under the key `reqid`. -/
def ctxC10 : Ctx := [(GoVal.str "reqid", GoVal.str "abc-123")]

/-- C10 witnessed at a concrete input: the request-id header of the
outgoing request equals the context's string request-id value. -/
theorem C10_request_id_header_witness :
    canonicalMIMEHeaderKey clientC10.headerKeyRequestID ≠ "Accept" ∧
    (headerGet (buildHeaders clientC10 ctxC10 []) clientC10.headerKeyRequestID =
      fromContextRequestId clientC10 ctxC10 ∧
    ((fromContextRequestId clientC10 ctxC10).isSome = true ↔
      ∃ s, ctxValue ctxC10 (GoVal.str clientC10.contextRequestId) =
        some (GoVal.str s))) :=
  ⟨by decide,
    C10_request_id_header_iff_ctx_string clientC10 ctxC10 []
      (by decide) (by decide) (by decide)⟩
